import Mathlib

/-!
Shallow embedding of the buildpack packager core (`src/packager/packager.go`).

The filesystem is modelled as an association list from path strings to byte
contents (`FS`); writing a path prepends a binding, lookup takes the first
binding, so a write shadows earlier contents.  External collaborators are
modelled as parameters: `hash` stands for the composite
`hex.EncodeToString(sha256.Sum256 content)` (a lowercase hex digest string)
and `md5h` for `fmt.Sprintf("%x", md5.Sum(uriBytes))`.  I/O outcomes that
depend on the operating system or the network (MkdirAll, Create, url.Parse,
http.Get, io.Copy) are supplied by an explicit environment `Env`, so every
control path of the Go code becomes a branch on `Env` fields.
-/

/-- Byte content of a file, one `Nat` per byte. -/
abbrev Bytes := List Nat

/-- The filesystem: an association list of (path, content) bindings. -/
abbrev FS := List (String × Bytes)

/-- First-binding lookup in the filesystem (models reading / os.Stat success). -/
def lookupFS (fs : FS) (p : String) : Option Bytes :=
  match fs with
  | [] => none
  | (q, c) :: rest => if q == p then some c else lookupFS rest p

/-- Writing a file: prepend a binding that shadows any earlier one. -/
def setFS (fs : FS) (p : String) (c : Bytes) : FS :=
  (p, c) :: fs

/-- Model of `Dependency` from the typed manifest view: URI, declared sha256 and
the cf_stacks list (packager.go uses `libbuildpack.Dependency`). -/
structure Dependency where
  URI : String
  SHA256 : String
  Stacks : List String
deriving DecidableEq, Repr

/-- Model of `File` (packager.go): an archive entry name and a local source path. -/
structure File where
  Name : String
  Path : String
deriving DecidableEq, Repr

/-- Result of `url.Parse`: the scheme and the path component. -/
structure URLParts where
  scheme : String
  path : String
deriving DecidableEq, Repr

/-- Outcome of `http.Get`: a transport error, or a response with an HTTP
status code and a body. -/
inductive NetResult where
  | transportErr
  | resp (status : Nat) (body : Bytes)
deriving DecidableEq, Repr

/-- Environment fixing the outcome of every OS / network primitive the
fetcher touches.  `copyFail` makes `io.Copy` fail after `copyCount` bytes. -/
structure Env where
  mkdirCacheOk : Bool
  mkdirDepOk : Bool
  createOk : Bool
  parseURI : String → Option URLParts
  net : String → NetResult
  copyFail : Bool
  copyCount : Nat

/-- Result of `downloadFromURI`: the returned error (if any), the filesystem
afterwards, and how many transfer attempts (HTTP GET issued or local source
file opened) were made. -/
structure FetchOut where
  res : Except String Unit
  fs : FS
  transfers : Nat
deriving Repr

/-- The `io.Copy(output, source)` step of downloadFromURI (packager.go line
272): on failure a prefix of the source bytes is left in the destination. -/
def copyToFile (env : Env) (fs : FS) (fileName : String) (content : Bytes) : FetchOut :=
  if env.copyFail then
    { res := Except.error "copy failed", fs := setFS fs fileName (content.take env.copyCount), transfers := 1 }
  else
    { res := Except.ok (), fs := setFS fs fileName content, transfers := 1 }

/-- Model of `downloadFromURI` (packager.go lines 234-275), step for step:
MkdirAll on the parent, then os.Create (truncating the destination to empty
bytes), then url.Parse, then either a local-file open ("file" scheme) or an
HTTP GET with a 2xx status check, then io.Copy.  Note os.Create runs before
url.Parse and before any status check, so those failures leave an empty file
behind. -/
def downloadFromURI (env : Env) (fs : FS) (uri fileName : String) : FetchOut :=
  if env.mkdirDepOk = false then
    { res := Except.error "mkdir failed", fs := fs, transfers := 0 }
  else if env.createOk = false then
    { res := Except.error "create failed", fs := fs, transfers := 0 }
  else
    match env.parseURI uri with
    | none => { res := Except.error "parse failed", fs := setFS fs fileName [], transfers := 0 }
    | some u =>
      if u.scheme == "file" then
        match lookupFS (setFS fs fileName []) u.path with
        | none =>
          { res := Except.error ("open failed: " ++ u.path), fs := setFS fs fileName [], transfers := 1 }
        | some content => copyToFile env (setFS fs fileName []) fileName content
      else
        match env.net uri with
        | NetResult.transportErr =>
          { res := Except.error "get failed", fs := setFS fs fileName [], transfers := 1 }
        | NetResult.resp status body =>
          if status < 200 || 299 < status then
            { res := Except.error ("could not download: " ++ toString status), fs := setFS fs fileName [], transfers := 1 }
          else copyToFile env (setFS fs fileName []) fileName body

/-- Model of `checkSha256` (packager.go lines 277-291): read the file, compute the
digest, and compare it to the expected digest with exact Go string
inequality `!=` - no case folding. -/
def checkSha256 (hash : Bytes → String) (fs : FS) (filePath expectedSha256 : String) : Except String Unit :=
  match lookupFS fs filePath with
  | none => Except.error ("read failed: " ++ filePath)
  | some content =>
    if (hash content != expectedSha256) then
      Except.error ("dependency sha256 mismatch: expected sha256 " ++ expectedSha256 ++ ", actual sha256 " ++ hash content)
    else
      Except.ok ()

/-- Helper for `basename`: the final slash-separated run of characters. -/
def lastComponent (acc : List Char) : List Char → List Char
  | [] => acc
  | c :: rest => if c = '/' then lastComponent [] rest else lastComponent (acc ++ [c]) rest

/-- Model of `filepath.Base` of a URI as the packager uses it: the last
slash-separated component. -/
def basename (s : String) : String :=
  String.mk (lastComponent [] s.data)

/-- The cache-relative dependency path (packager.go line 128):
`dependencies/<md5-of-URI>/<basename-of-URI>`. -/
def depCachePath (md5h : String → String) (dep : Dependency) : String :=
  "dependencies/" ++ md5h dep.URI ++ "/" ++ basename dep.URI

/-- Model of `filepath.Join(cacheDir, file)` for the dependency cache path. -/
def fullCachePath (md5h : String → String) (cacheDir : String) (dep : Dependency) : String :=
  cacheDir ++ "/" ++ depCachePath md5h dep

/-- Outcome of `downloadDependency`: `fatal` models `log.Fatalf` (process
termination, no return), `err` an error return, `ok` a returned `File`. -/
inductive DlRes where
  | fatal
  | err (msg : String)
  | ok (f : File)
deriving DecidableEq, Repr

/-- Full outcome of `downloadDependency`: result, filesystem afterwards,
number of transfer attempts and number of checksum verifications. -/
structure DlOut where
  res : DlRes
  fs : FS
  transfers : Nat
  checks : Nat
deriving DecidableEq, Repr

/-- The shared tail of `downloadDependency` (packager.go lines 139-143):
`checkSha256` against the declared digest on the filesystem left by the
preceding steps, then the `File` with the cache-relative name and the
joined path. -/
def dlVerify (hash : Bytes → String) (md5h : String → String) (cacheDir : String) (dep : Dependency) (fs : FS) (t : Nat) : DlOut :=
  match checkSha256 hash fs (fullCachePath md5h cacheDir dep) dep.SHA256 with
  | Except.error e => { res := DlRes.err e, fs := fs, transfers := t, checks := 1 }
  | Except.ok _ =>
    { res := DlRes.ok { Name := depCachePath md5h dep, Path := fullCachePath md5h cacheDir dep }
      fs := fs, transfers := t, checks := 1 }

/-- Model of `downloadDependency` (packager.go lines 127-144): MkdirAll on the cache
root (failure is `log.Fatalf`, modelled as `fatal`); os.Stat on the cache
path, downloading via `downloadFromURI` only when absent; then always
`dlVerify` (the checksum check and `File` return shared by the
just-downloaded and previously-cached paths). -/
def downloadDependency (hash : Bytes → String) (md5h : String → String) (env : Env) (fs : FS) (dep : Dependency) (cacheDir : String) : DlOut :=
  if env.mkdirCacheOk = false then
    { res := DlRes.fatal, fs := fs, transfers := 0, checks := 0 }
  else
    match lookupFS fs (fullCachePath md5h cacheDir dep) with
    | some _ => dlVerify hash md5h cacheDir dep fs 0
    | none =>
      match (downloadFromURI env fs dep.URI (fullCachePath md5h cacheDir dep)).res with
      | Except.error e =>
        { res := DlRes.err e
          fs := (downloadFromURI env fs dep.URI (fullCachePath md5h cacheDir dep)).fs
          transfers := (downloadFromURI env fs dep.URI (fullCachePath md5h cacheDir dep)).transfers
          checks := 0 }
      | Except.ok _ =>
        dlVerify hash md5h cacheDir dep
          (downloadFromURI env fs dep.URI (fullCachePath md5h cacheDir dep)).fs
          (downloadFromURI env fs dep.URI (fullCachePath md5h cacheDir dep)).transfers

/-- Two sequential calls of `downloadDependency` with identical arguments,
the second starting from the filesystem the first left behind. -/
def dlTwice (hash : Bytes → String) (md5h : String → String) (env : Env) (fs : FS) (dep : Dependency) (cacheDir : String) : DlOut × DlOut :=
  (downloadDependency hash md5h env fs dep cacheDir,
   downloadDependency hash md5h env (downloadDependency hash md5h env fs dep cacheDir).fs dep cacheDir)

/-- A raw manifest document value, as the generic YAML load produces it:
either a mapping (modelled with string keys and string values, which is all
the transformer touches) or some non-mapping value. -/
inductive YEntry where
  | str (s : String)
  | map (kvs : List (String × String))
deriving DecidableEq, Repr

/-- Go map assignment `dep[key] = v` on an association-list model: replace
the binding when the key is present, otherwise append it. -/
def setKey (kvs : List (String × String)) (k v : String) : List (String × String) :=
  if kvs.any (fun p => p.1 == k) then
    kvs.map (fun p => if p.1 == k then (k, v) else p)
  else
    kvs ++ [(k, v)]

/-- Model of `updateDependencyMap` (packager.go lines 118-125): cast the raw entry to
a mapping and set its "file" key to the fetched file's name; a non-mapping
entry yields the typed-cast error. -/
def updateDependencyMap (entry : YEntry) (file : File) : Except String YEntry :=
  match entry with
  | YEntry.map kvs => Except.ok (YEntry.map (setKey kvs "file" file.Name))
  | _ => Except.error "Could not cast deps[idx] to map[interface\x7b\x7d]interface\x7b\x7d"

/-- The retention decision of Package's dependency loop (packager.go lines
200-201 with the `break` at 213): the body runs once iff some element s of
d.Stacks satisfies `stack == "" || s == stack`. -/
def retainDep (stack : String) (d : Dependency) : Bool :=
  d.Stacks.any (fun s => stack == "" || s == stack)

/-- Outcome of Package's dependency loop: `panic` models the Go runtime
panic from `deps[idx]` indexing out of range (there is no error return for
it); `fatal` propagates `log.Fatalf` from downloadDependency; `err` an
error return; `ok` carries the rewritten dependency sequence, the collected
archive files, and the filesystem afterwards. -/
inductive LoopOut where
  | panic
  | fatal
  | err (msg : String)
  | ok (deps : List YEntry) (files : List File) (fs : FS)
deriving DecidableEq, Repr

/-- The dependency filter/rewrite loop of `Package` (packager.go lines
198-216).  `typed` is ManifestView.Dependencies, `raw` the raw document's
"dependencies" sequence, walked by the shared index `idx`.  For a retained
dependency the raw entry is fetched at `raw[idx]` without a bounds check
(`panic` when out of range); in cached mode the dependency is downloaded and
`updateDependencyMap`'s return value is discarded exactly as in the source
(the entry is appended unchanged when the cast fails); the retained entries
are accumulated in order. -/
def depsLoop (hash : Bytes → String) (md5h : String → String) (env : Env) (cached : Bool) (stack cacheDir : String) (fs : FS) (typed : List Dependency) (raw : List YEntry) (idx : Nat) (accDeps : List YEntry) (files : List File) : LoopOut :=
  match typed with
  | [] => LoopOut.ok accDeps files fs
  | d :: ds =>
    if retainDep stack d then
      match raw[idx]? with
      | none => LoopOut.panic
      | some entry =>
        if cached then
          match (downloadDependency hash md5h env fs d cacheDir).res with
          | DlRes.fatal => LoopOut.fatal
          | DlRes.err e => LoopOut.err e
          | DlRes.ok file =>
            match updateDependencyMap entry file with
            | Except.ok entry2 =>
              depsLoop hash md5h env cached stack cacheDir (downloadDependency hash md5h env fs d cacheDir).fs ds raw (idx + 1) (accDeps ++ [entry2]) (files ++ [file])
            | Except.error _ =>
              depsLoop hash md5h env cached stack cacheDir (downloadDependency hash md5h env fs d cacheDir).fs ds raw (idx + 1) (accDeps ++ [entry]) (files ++ [file])
        else
          depsLoop hash md5h env cached stack cacheDir fs ds raw (idx + 1) (accDeps ++ [entry]) files
    else
      depsLoop hash md5h env cached stack cacheDir fs ds raw (idx + 1) accDeps files

/-- Environment for the archive builder: whether `os.Create` of the
destination archive succeeds. -/
structure ZipEnv where
  createOk : Bool
deriving DecidableEq, Repr

/-- The per-file loop of `ZipFiles` (packager.go lines 304-336): open each
source path, abort with the first error, otherwise emit the archive entry
(File.Name, content) in the supplied order. -/
def zipEntries (fs : FS) (files : List File) : Except String (List (String × Bytes)) :=
  match files with
  | [] => Except.ok []
  | f :: rest =>
    match lookupFS fs f.Path with
    | none => Except.error ("open failed: " ++ f.Path)
    | some content =>
      match zipEntries fs rest with
      | Except.error e => Except.error e
      | Except.ok es => Except.ok ((f.Name, content) :: es)

/-- Model of `ZipFiles` (packager.go lines 293-338): create the destination archive
(first possible failure), then write one entry per supplied File; the
produced archive is modelled as its ordered entry list. -/
def ZipFiles (zenv : ZipEnv) (fs : FS) (filename : String) (files : List File) : Except String (List (String × Bytes)) :=
  if zenv.createOk = false then
    Except.error ("create failed: " ++ filename)
  else
    zipEntries fs files

/-- The archive file name Package computes (packager.go lines 223-226). -/
def zipFileName (language version : String) (cached : Bool) : String :=
  if cached then language ++ "_buildpack-cached-v" ++ version ++ ".zip"
  else language ++ "_buildpack-v" ++ version ++ ".zip"

/-- The tail of `Package` (packager.go lines 223-231), faithfully including
the slip on line 229: the result of `ZipFiles` is not assigned, and the
function returns the zip path together with the stale nil error. -/
def packageFinish (zenv : ZipEnv) (fs : FS) (language version : String) (cached : Bool) (bpDir : String) (files : List File) : Except String String :=
  match ZipFiles zenv fs (bpDir ++ "/" ++ zipFileName language version cached) files with
  | _ => Except.ok (bpDir ++ "/" ++ zipFileName language version cached)

/-- The relative path string `filepath.Rel` hands the walk callback for an
entry given by its path components: components joined with "/". -/
def relString : List String → String
  | [] => ""
  | [c] => c
  | c :: rest => c ++ "/" ++ relString rest

/-- The skip test of copyDirectory's walk callback (packager.go line 354):
the relative path string equals ".git" or equals "tests". -/
def walkSkipHere (p : List String) : Bool :=
  relString p == ".git" || relString p == "tests"

/-- All nonempty prefixes of a component path, shortest first: the walk
visits each ancestor of an entry before the entry itself. -/
def prefixesOf : List String → List (List String)
  | [] => []
  | c :: rest => [c] :: (prefixesOf rest).map (fun q => c :: q)

/-- Model of `filepath.SkipDir` semantics: an entry is excluded from the copy iff the
walk returned SkipDir at the entry itself or at one of its ancestors. -/
def excludedByWalk (p : List String) : Bool :=
  (prefixesOf p).any walkSkipHere

/-- Model of `copyDirectory` (packager.go lines 340-397) restricted to which entries
of the source tree appear in the staged copy: a tree is the list of its
entries' component paths, and an entry is copied iff no prefix of it
triggers the skip test on line 354. -/
def copyDirectory (tree : List (List String)) : List (List String) :=
  tree.filter (fun p => !excludedByWalk p)

/-- Direct characterization of the exclusion the code actually performs:
only a first component equal to ".git" or "tests" excludes an entry. -/
def topSkip : List String → Bool
  | [] => false
  | c :: _ => c == ".git" || c == "tests"

/-- An environment whose OS primitives all succeed, whose URI parse always
fails, and whose network always transport-errors; concrete inputs for
witnesses below override nothing they do not reach. -/
def noEnv : Env :=
  { mkdirCacheOk := true, mkdirDepOk := true, createOk := true,
    parseURI := fun _ => none, net := fun _ => NetResult.transportErr,
    copyFail := false, copyCount := 0 }

/-- ASCII lowercasing of one character (hex digests only use ASCII). -/
def lowerChar (c : Char) : Char :=
  if 'A' <= c && c <= 'Z' then Char.ofNat (c.toNat + 32) else c

/-- ASCII lowercasing of a string, used to state that two hex digests
differ only in letter case. -/
def lowerString (s : String) : String :=
  String.mk (s.data.map lowerChar)

example : basename "https://host/a/b.tgz" = "b.tgz" := by decide

example :
    downloadFromURI
      { mkdirCacheOk := true, mkdirDepOk := true, createOk := true,
        parseURI := fun _ => some { scheme := "http", path := "" },
        net := fun _ => NetResult.resp 200 [7, 8], copyFail := false, copyCount := 0 }
      [] "u" "c/f" = { res := Except.ok (), fs := [("c/f", [7, 8]), ("c/f", [])], transfers := 1 } := rfl

/-! Helper lemmas. -/

theorem lookupFS_setFS_self (fs : FS) (p : String) (c : Bytes) :
    lookupFS (setFS fs p c) p = some c := by
  simp [setFS, lookupFS]

theorem dlVerify_fs (hash : Bytes → String) (md5h : String → String) (cacheDir : String) (dep : Dependency) (fs : FS) (t : Nat) :
    (dlVerify hash md5h cacheDir dep fs t).fs = fs := by
  unfold dlVerify
  split <;> rfl

theorem dlVerify_transfers (hash : Bytes → String) (md5h : String → String) (cacheDir : String) (dep : Dependency) (fs : FS) (t : Nat) :
    (dlVerify hash md5h cacheDir dep fs t).transfers = t := by
  unfold dlVerify
  split <;> rfl

theorem checkSha256_ok_lookup (hash : Bytes → String) (fs : FS) (p sha : String)
    (h : checkSha256 hash fs p sha = Except.ok ()) :
    ∃ content, lookupFS fs p = some content ∧ hash content = sha := by
  rcases hq : lookupFS fs p with _ | c
  · simp [checkSha256, hq] at h
  · refine ⟨c, rfl, ?_⟩
    by_cases hne : hash c = sha
    · exact hne
    · simp [checkSha256, hq, bne_iff_ne, hne] at h

theorem checkSha256_mismatch (hash : Bytes → String) (fs : FS) (p sha : String) (content : Bytes)
    (hq : lookupFS fs p = some content) (hne : hash content ≠ sha) :
    checkSha256 hash fs p sha
      = Except.error ("dependency sha256 mismatch: expected sha256 " ++ sha ++ ", actual sha256 " ++ hash content) := by
  simp [checkSha256, hq, bne_iff_ne, hne]

theorem checkSha256_match (hash : Bytes → String) (fs : FS) (p sha : String) (content : Bytes)
    (hq : lookupFS fs p = some content) (heq : hash content = sha) :
    checkSha256 hash fs p sha = Except.ok () := by
  simp [checkSha256, hq, bne_iff_ne, heq]

theorem dlVerify_err_of_mismatch (hash : Bytes → String) (md5h : String → String) (cacheDir : String) (dep : Dependency) (fs : FS) (t : Nat) (content : Bytes)
    (hq : lookupFS fs (fullCachePath md5h cacheDir dep) = some content)
    (hne : hash content ≠ dep.SHA256) :
    (dlVerify hash md5h cacheDir dep fs t).res
      = DlRes.err ("dependency sha256 mismatch: expected sha256 " ++ dep.SHA256 ++ ", actual sha256 " ++ hash content) := by
  unfold dlVerify
  rw [checkSha256_mismatch hash fs _ _ content hq hne]

theorem dlVerify_of_check_ok (hash : Bytes → String) (md5h : String → String) (cacheDir : String) (dep : Dependency) (fs : FS) (t : Nat)
    (h : checkSha256 hash fs (fullCachePath md5h cacheDir dep) dep.SHA256 = Except.ok ()) :
    dlVerify hash md5h cacheDir dep fs t
      = { res := DlRes.ok { Name := depCachePath md5h dep, Path := fullCachePath md5h cacheDir dep }
          fs := fs, transfers := t, checks := 1 } := by
  unfold dlVerify
  rw [h]

theorem dlVerify_ok_inv (hash : Bytes → String) (md5h : String → String) (cacheDir : String) (dep : Dependency) (fs : FS) (t : Nat) (f : File)
    (h : (dlVerify hash md5h cacheDir dep fs t).res = DlRes.ok f) :
    checkSha256 hash fs (fullCachePath md5h cacheDir dep) dep.SHA256 = Except.ok ()
      ∧ f = { Name := depCachePath md5h dep, Path := fullCachePath md5h cacheDir dep } := by
  unfold dlVerify at h
  rcases hc : checkSha256 hash fs (fullCachePath md5h cacheDir dep) dep.SHA256 with e | u
  · rw [hc] at h
    exact absurd h (by simp)
  · cases u
    rw [hc] at h
    simp only [DlRes.ok.injEq] at h
    exact ⟨rfl, h.symm⟩

theorem downloadFromURI_transfers_le (env : Env) (fs : FS) (uri fn : String) :
    (downloadFromURI env fs uri fn).transfers ≤ 1 := by
  unfold downloadFromURI copyToFile
  repeat' split
  all_goals first
  | exact Nat.zero_le 1
  | exact Nat.le_refl 1

theorem downloadFromURI_writes (env : Env) (fs : FS) (uri fn : String)
    (hmd : env.mkdirDepOk = true) (hcr : env.createOk = true) :
    ∃ c, lookupFS (downloadFromURI env fs uri fn).fs fn = some c := by
  unfold downloadFromURI copyToFile
  rw [hmd, hcr]
  simp only [Bool.true_eq_false, if_false]
  repeat' split
  all_goals exact ⟨_, lookupFS_setFS_self _ _ _⟩

theorem downloadFromURI_early (env : Env) (fs : FS) (uri fn : String)
    (h : env.mkdirDepOk = false ∨ env.createOk = false) :
    (downloadFromURI env fs uri fn).fs = fs ∧ (downloadFromURI env fs uri fn).transfers = 0
      ∧ ∃ e, (downloadFromURI env fs uri fn).res = Except.error e := by
  unfold downloadFromURI
  rcases h with h | h
  · rw [h]
    exact ⟨rfl, rfl, _, rfl⟩
  · rcases hmd : env.mkdirDepOk with _ | _
    · exact ⟨rfl, rfl, _, rfl⟩
    · rw [h]
      exact ⟨rfl, rfl, _, rfl⟩

theorem dlVerify_checks (hash : Bytes → String) (md5h : String → String) (cacheDir : String) (dep : Dependency) (fs : FS) (t : Nat) :
    (dlVerify hash md5h cacheDir dep fs t).checks = 1 := by
  unfold dlVerify
  split <;> rfl

theorem dl_present (hash : Bytes → String) (md5h : String → String) (env : Env) (fs : FS) (dep : Dependency) (cacheDir : String) (c : Bytes)
    (hmk : env.mkdirCacheOk = true)
    (hq : lookupFS fs (fullCachePath md5h cacheDir dep) = some c) :
    downloadDependency hash md5h env fs dep cacheDir = dlVerify hash md5h cacheDir dep fs 0 := by
  simp [downloadDependency, hmk, hq]

theorem dl_absent_err (hash : Bytes → String) (md5h : String → String) (env : Env) (fs : FS) (dep : Dependency) (cacheDir : String) (e : String)
    (hmk : env.mkdirCacheOk = true)
    (hq : lookupFS fs (fullCachePath md5h cacheDir dep) = none)
    (hres : (downloadFromURI env fs dep.URI (fullCachePath md5h cacheDir dep)).res = Except.error e) :
    downloadDependency hash md5h env fs dep cacheDir
      = { res := DlRes.err e
          fs := (downloadFromURI env fs dep.URI (fullCachePath md5h cacheDir dep)).fs
          transfers := (downloadFromURI env fs dep.URI (fullCachePath md5h cacheDir dep)).transfers
          checks := 0 } := by
  simp [downloadDependency, hmk, hq, hres]

theorem dl_absent_ok (hash : Bytes → String) (md5h : String → String) (env : Env) (fs : FS) (dep : Dependency) (cacheDir : String) (u : Unit)
    (hmk : env.mkdirCacheOk = true)
    (hq : lookupFS fs (fullCachePath md5h cacheDir dep) = none)
    (hres : (downloadFromURI env fs dep.URI (fullCachePath md5h cacheDir dep)).res = Except.ok u) :
    downloadDependency hash md5h env fs dep cacheDir
      = dlVerify hash md5h cacheDir dep
          (downloadFromURI env fs dep.URI (fullCachePath md5h cacheDir dep)).fs
          (downloadFromURI env fs dep.URI (fullCachePath md5h cacheDir dep)).transfers := by
  simp [downloadDependency, hmk, hq, hres]

/-! Claim theorems. -/

/-- Claim C1: for every dependency and cache root, if the byte content of
the file present at the dependency's cache path after the fetch (whether
just downloaded or previously cached) has a digest different from the
dependency's declared SHA256, then downloadDependency returns an error and
never returns a File.  (`env.mkdirCacheOk = true` excludes the unrelated
log.Fatalf path, which terminates the process and returns nothing at all.) -/
theorem fetch_mismatch_never_file (hash : Bytes → String) (md5h : String → String) (env : Env) (fs : FS) (dep : Dependency) (cacheDir : String) (content : Bytes)
    (hmk : env.mkdirCacheOk = true)
    (hpresent : lookupFS (downloadDependency hash md5h env fs dep cacheDir).fs (fullCachePath md5h cacheDir dep) = some content)
    (hne : hash content ≠ dep.SHA256) :
    ∃ e, (downloadDependency hash md5h env fs dep cacheDir).res = DlRes.err e := by
  rcases hq : lookupFS fs (fullCachePath md5h cacheDir dep) with _ | c
  · rcases hres : (downloadFromURI env fs dep.URI (fullCachePath md5h cacheDir dep)).res with e | u
    · rw [dl_absent_err hash md5h env fs dep cacheDir e hmk hq hres]
      exact ⟨e, rfl⟩
    · rw [dl_absent_ok hash md5h env fs dep cacheDir u hmk hq hres] at hpresent ⊢
      rw [dlVerify_fs] at hpresent
      exact ⟨_, dlVerify_err_of_mismatch hash md5h cacheDir dep _ _ content hpresent hne⟩
  · rw [dl_present hash md5h env fs dep cacheDir c hmk hq] at hpresent ⊢
    rw [dlVerify_fs] at hpresent
    exact ⟨_, dlVerify_err_of_mismatch hash md5h cacheDir dep _ _ content hpresent hne⟩

/-- Witness for C1 at a concrete previously-cached file whose content
hashes to "ab" while the dependency declares "zz". -/
theorem fetch_mismatch_never_file_witness :
    noEnv.mkdirCacheOk = true
    ∧ lookupFS (downloadDependency (fun _ => "ab") (fun _ => "m") noEnv [("cache/dependencies/m/u", [1])] { URI := "u", SHA256 := "zz", Stacks := [] } "cache").fs
        (fullCachePath (fun _ => "m") "cache" { URI := "u", SHA256 := "zz", Stacks := [] }) = some [1]
    ∧ (fun _ : Bytes => "ab") [1] ≠ "zz"
    ∧ ∃ e, (downloadDependency (fun _ => "ab") (fun _ => "m") noEnv [("cache/dependencies/m/u", [1])] { URI := "u", SHA256 := "zz", Stacks := [] } "cache").res = DlRes.err e :=
  ⟨rfl, by decide, by decide,
   fetch_mismatch_never_file (fun _ => "ab") (fun _ => "m") noEnv [("cache/dependencies/m/u", [1])] { URI := "u", SHA256 := "zz", Stacks := [] } "cache" [1] rfl (by decide) (by decide)⟩

theorem dl_mkdir_fatal (hash : Bytes → String) (md5h : String → String) (env : Env) (fs : FS) (dep : Dependency) (cacheDir : String)
    (h : env.mkdirCacheOk = false) :
    downloadDependency hash md5h env fs dep cacheDir
      = { res := DlRes.fatal, fs := fs, transfers := 0, checks := 0 } := by
  simp [downloadDependency, h]

/-- Claim C10: when creating the cache directory fails, downloadDependency
ends in `log.Fatalf` (modelled by the distinguished `fatal` outcome, which
is not an `err` return), leaving the filesystem untouched, with no download
and no checksum verification. -/
theorem downloadDependency_mkdir_fatal (hash : Bytes → String) (md5h : String → String) (env : Env) (fs : FS) (dep : Dependency) (cacheDir : String)
    (h : env.mkdirCacheOk = false) :
    downloadDependency hash md5h env fs dep cacheDir
      = { res := DlRes.fatal, fs := fs, transfers := 0, checks := 0 } :=
  dl_mkdir_fatal hash md5h env fs dep cacheDir h

/-- Witness for C10 with a concrete environment whose cache MkdirAll fails. -/
theorem downloadDependency_mkdir_fatal_witness :
    ({ noEnv with mkdirCacheOk := false } : Env).mkdirCacheOk = false
    ∧ downloadDependency (fun _ => "ab") (fun _ => "m") { noEnv with mkdirCacheOk := false } [] { URI := "u", SHA256 := "zz", Stacks := [] } "cache"
        = { res := DlRes.fatal, fs := [], transfers := 0, checks := 0 } :=
  ⟨rfl, downloadDependency_mkdir_fatal (fun _ => "ab") (fun _ => "m") _ [] { URI := "u", SHA256 := "zz", Stacks := [] } "cache" rfl⟩

theorem dl_ok_stable (hash : Bytes → String) (md5h : String → String) (env : Env) (fs : FS) (dep : Dependency) (cacheDir : String) (f : File)
    (h : (downloadDependency hash md5h env fs dep cacheDir).res = DlRes.ok f) :
    downloadDependency hash md5h env (downloadDependency hash md5h env fs dep cacheDir).fs dep cacheDir
      = { res := DlRes.ok f, fs := (downloadDependency hash md5h env fs dep cacheDir).fs, transfers := 0, checks := 1 }
      ∧ (downloadDependency hash md5h env fs dep cacheDir).checks = 1 := by
  rcases hmk : env.mkdirCacheOk with _ | _
  · rw [dl_mkdir_fatal hash md5h env fs dep cacheDir hmk] at h
    exact absurd h (by simp)
  · rcases hq : lookupFS fs (fullCachePath md5h cacheDir dep) with _ | c
    · rcases hres : (downloadFromURI env fs dep.URI (fullCachePath md5h cacheDir dep)).res with e | u
      · rw [dl_absent_err hash md5h env fs dep cacheDir e hmk hq hres] at h
        exact absurd h (by simp)
      · rw [dl_absent_ok hash md5h env fs dep cacheDir u hmk hq hres] at h ⊢
        obtain ⟨hchk, hf⟩ := dlVerify_ok_inv hash md5h cacheDir dep _ _ f h
        obtain ⟨content, hlook, _⟩ := checkSha256_ok_lookup hash _ _ _ hchk
        rw [dlVerify_fs]
        constructor
        · rw [dl_present hash md5h env _ dep cacheDir content hmk hlook,
            dlVerify_of_check_ok hash md5h cacheDir dep _ 0 hchk, hf]
        · exact dlVerify_checks hash md5h cacheDir dep _ _
    · rw [dl_present hash md5h env fs dep cacheDir c hmk hq] at h ⊢
      obtain ⟨hchk, hf⟩ := dlVerify_ok_inv hash md5h cacheDir dep _ _ f h
      rw [dlVerify_fs]
      constructor
      · rw [dl_present hash md5h env fs dep cacheDir c hmk hq,
          dlVerify_of_check_ok hash md5h cacheDir dep fs 0 hchk, hf]
      · exact dlVerify_checks hash md5h cacheDir dep fs 0

/-- Claim C7: calling downloadDependency twice in sequence with identical
arguments performs the transfer (HTTP GET or local file copy) at most once
in total; and whenever the first call returns a File, the second call skips
the download entirely (zero transfers), re-runs the checksum verification,
and returns the same File over the unchanged filesystem - as does the
first call (one verification each). -/
theorem fetch_idempotent (hash : Bytes → String) (md5h : String → String) (env : Env) (fs : FS) (dep : Dependency) (cacheDir : String) :
    (dlTwice hash md5h env fs dep cacheDir).1.transfers + (dlTwice hash md5h env fs dep cacheDir).2.transfers ≤ 1
    ∧ ∀ f, (dlTwice hash md5h env fs dep cacheDir).1.res = DlRes.ok f →
        (dlTwice hash md5h env fs dep cacheDir).2
          = { res := DlRes.ok f, fs := (dlTwice hash md5h env fs dep cacheDir).1.fs, transfers := 0, checks := 1 }
        ∧ (dlTwice hash md5h env fs dep cacheDir).1.checks = 1 := by
  unfold dlTwice
  constructor
  · rcases hmk : env.mkdirCacheOk with _ | _
    · rw [dl_mkdir_fatal hash md5h env fs dep cacheDir hmk]
      rw [dl_mkdir_fatal hash md5h env _ dep cacheDir hmk]
      simp
    · rcases hq : lookupFS fs (fullCachePath md5h cacheDir dep) with _ | c
      · by_cases hearly : env.mkdirDepOk = false ∨ env.createOk = false
        · obtain ⟨hfs, ht, e, hres⟩ := downloadFromURI_early env fs dep.URI (fullCachePath md5h cacheDir dep) hearly
          rw [dl_absent_err hash md5h env fs dep cacheDir e hmk hq hres]
          simp only [hfs, ht]
          rw [dl_absent_err hash md5h env fs dep cacheDir e hmk hq hres]
          simp only [hfs, ht]
          simp
        · have hmd : env.mkdirDepOk = true := by
            rcases hx : env.mkdirDepOk with _ | _
            · exact absurd (Or.inl hx) hearly
            · rfl
          have hcr : env.createOk = true := by
            rcases hx : env.createOk with _ | _
            · exact absurd (Or.inr hx) hearly
            · rfl
          obtain ⟨c0, hwr⟩ := downloadFromURI_writes env fs dep.URI (fullCachePath md5h cacheDir dep) hmd hcr
          have hle := downloadFromURI_transfers_le env fs dep.URI (fullCachePath md5h cacheDir dep)
          rcases hres : (downloadFromURI env fs dep.URI (fullCachePath md5h cacheDir dep)).res with e | u
          · rw [dl_absent_err hash md5h env fs dep cacheDir e hmk hq hres]
            rw [dl_present hash md5h env _ dep cacheDir c0 hmk hwr, dlVerify_transfers]
            simpa using hle
          · rw [dl_absent_ok hash md5h env fs dep cacheDir u hmk hq hres]
            rw [dlVerify_fs, dlVerify_transfers]
            rw [dl_present hash md5h env _ dep cacheDir c0 hmk hwr, dlVerify_transfers]
            simpa using hle
      · rw [dl_present hash md5h env fs dep cacheDir c hmk hq, dlVerify_fs, dlVerify_transfers]
        rw [dl_present hash md5h env fs dep cacheDir c hmk hq, dlVerify_transfers]
        simp
  · intro f h
    exact dl_ok_stable hash md5h env fs dep cacheDir f h

/-- Witness for C7 at a concrete dependency whose artifact is already
cached with a matching digest: the first call returns the File and the
second call performs no transfer and one verification. -/
theorem fetch_idempotent_witness :
    (dlTwice (fun _ => "h") (fun _ => "m") noEnv [("cache/dependencies/m/u", [])] { URI := "u", SHA256 := "h", Stacks := [] } "cache").1.res
      = DlRes.ok { Name := "dependencies/m/u", Path := "cache/dependencies/m/u" }
    ∧ (dlTwice (fun _ => "h") (fun _ => "m") noEnv [("cache/dependencies/m/u", [])] { URI := "u", SHA256 := "h", Stacks := [] } "cache").2
        = { res := DlRes.ok { Name := "dependencies/m/u", Path := "cache/dependencies/m/u" }
            fs := (dlTwice (fun _ => "h") (fun _ => "m") noEnv [("cache/dependencies/m/u", [])] { URI := "u", SHA256 := "h", Stacks := [] } "cache").1.fs
            transfers := 0, checks := 1 } :=
  ⟨by decide,
   ((fetch_idempotent (fun _ => "h") (fun _ => "m") noEnv [("cache/dependencies/m/u", [])] { URI := "u", SHA256 := "h", Stacks := [] } "cache").2
      { Name := "dependencies/m/u", Path := "cache/dependencies/m/u" } (by decide)).1⟩

theorem downloadFromURI_fail_empty (env : Env) (fs : FS) (uri fn : String)
    (hmd : env.mkdirDepOk = true) (hcr : env.createOk = true)
    (hfail : env.parseURI uri = none
      ∨ (∃ u, env.parseURI uri = some u ∧ (u.scheme == "file") = false ∧ env.net uri = NetResult.transportErr)
      ∨ (∃ u st body, env.parseURI uri = some u ∧ (u.scheme == "file") = false
          ∧ env.net uri = NetResult.resp st body ∧ (st < 200 ∨ 299 < st))) :
    (downloadFromURI env fs uri fn).fs = setFS fs fn []
      ∧ ∃ e, (downloadFromURI env fs uri fn).res = Except.error e := by
  rcases hfail with hp | ⟨u, hp, hsch, hnet⟩ | ⟨u, st, body, hp, hsch, hnet, hst⟩
  · simp [downloadFromURI, hmd, hcr, hp]
  · simp [downloadFromURI, hmd, hcr, hp, hsch, hnet]
  · rcases hst with hst | hst <;>
      simp [downloadFromURI, hmd, hcr, hp, hsch, hnet, hst, Nat.not_le_of_lt hst]

/-- Claim C9: when the download fails after os.Create (URI parse error,
transport error, or non-2xx status), an empty file remains at the cache
path and downloadDependency returns an error; a second fetch of the same
dependency then performs no transfer and, whenever the empty content's
digest differs from the declared SHA256, fails with the checksum-mismatch
error instead of retrying the download. -/
theorem fetch_failure_poisons_cache (hash : Bytes → String) (md5h : String → String) (env : Env) (fs : FS) (dep : Dependency) (cacheDir : String)
    (hmk : env.mkdirCacheOk = true) (hmd : env.mkdirDepOk = true) (hcr : env.createOk = true)
    (habs : lookupFS fs (fullCachePath md5h cacheDir dep) = none)
    (hfail : env.parseURI dep.URI = none
      ∨ (∃ u, env.parseURI dep.URI = some u ∧ (u.scheme == "file") = false ∧ env.net dep.URI = NetResult.transportErr)
      ∨ (∃ u st body, env.parseURI dep.URI = some u ∧ (u.scheme == "file") = false
          ∧ env.net dep.URI = NetResult.resp st body ∧ (st < 200 ∨ 299 < st))) :
    (∃ e, (dlTwice hash md5h env fs dep cacheDir).1.res = DlRes.err e)
    ∧ lookupFS (dlTwice hash md5h env fs dep cacheDir).1.fs (fullCachePath md5h cacheDir dep) = some []
    ∧ (hash [] ≠ dep.SHA256 →
        (dlTwice hash md5h env fs dep cacheDir).2.transfers = 0
        ∧ (dlTwice hash md5h env fs dep cacheDir).2.res
            = DlRes.err ("dependency sha256 mismatch: expected sha256 " ++ dep.SHA256 ++ ", actual sha256 " ++ hash [])) := by
  obtain ⟨hffs, e, hres⟩ := downloadFromURI_fail_empty env fs dep.URI (fullCachePath md5h cacheDir dep) hmd hcr hfail
  have h1 := dl_absent_err hash md5h env fs dep cacheDir e hmk habs hres
  have hlook : lookupFS (downloadDependency hash md5h env fs dep cacheDir).fs (fullCachePath md5h cacheDir dep) = some [] := by
    rw [h1]
    show lookupFS (downloadFromURI env fs dep.URI (fullCachePath md5h cacheDir dep)).fs (fullCachePath md5h cacheDir dep) = some []
    rw [hffs]
    exact lookupFS_setFS_self fs _ []
  refine ⟨⟨e, ?_⟩, ?_, ?_⟩
  · unfold dlTwice
    rw [h1]
  · unfold dlTwice
    exact hlook
  · intro hne
    unfold dlTwice
    have h2 := dl_present hash md5h env _ dep cacheDir [] hmk hlook
    rw [h2, dlVerify_transfers]
    exact ⟨rfl, dlVerify_err_of_mismatch hash md5h cacheDir dep _ 0 [] hlook hne⟩

/-- Witness for C9 with a concrete environment whose URI parse always
fails: the first fetch leaves an empty cache file and errs, the second
performs no transfer and fails with the mismatch message. -/
theorem fetch_failure_poisons_cache_witness :
    noEnv.mkdirCacheOk = true ∧ noEnv.mkdirDepOk = true ∧ noEnv.createOk = true
    ∧ lookupFS [] (fullCachePath (fun _ => "m") "cache" { URI := "u", SHA256 := "zz", Stacks := [] }) = none
    ∧ noEnv.parseURI "u" = none
    ∧ (fun _ : Bytes => "ab") [] ≠ "zz"
    ∧ (∃ e, (dlTwice (fun _ => "ab") (fun _ => "m") noEnv [] { URI := "u", SHA256 := "zz", Stacks := [] } "cache").1.res = DlRes.err e)
    ∧ (dlTwice (fun _ => "ab") (fun _ => "m") noEnv [] { URI := "u", SHA256 := "zz", Stacks := [] } "cache").2.transfers = 0
    ∧ (dlTwice (fun _ => "ab") (fun _ => "m") noEnv [] { URI := "u", SHA256 := "zz", Stacks := [] } "cache").2.res
        = DlRes.err ("dependency sha256 mismatch: expected sha256 " ++ "zz" ++ ", actual sha256 " ++ (fun _ : Bytes => "ab") []) := by
  have h := fetch_failure_poisons_cache (fun _ => "ab") (fun _ => "m") noEnv [] { URI := "u", SHA256 := "zz", Stacks := [] } "cache"
    rfl rfl rfl (by decide) (Or.inl rfl)
  exact ⟨rfl, rfl, rfl, by decide, rfl, by decide, h.1, (h.2.2 (by decide)).1, (h.2.2 (by decide)).2⟩

/-- Counterexample for C5: a declared digest that is the uppercase form of
the file's actual (lowercase) digest is rejected - the comparison is not
case-insensitive. -/
theorem checksum_not_case_insensitive :
    lowerString "AB" = "ab"
    ∧ checkSha256 (fun _ => "ab") [("p", [1])] "p" "AB"
        = Except.error "dependency sha256 mismatch: expected sha256 AB, actual sha256 ab" :=
  ⟨by decide, rfl⟩

/-- Amended C5: the checksum comparison is an exact string comparison - the
check succeeds precisely when the declared SHA256 equals the computed
(lowercase hex) digest character for character, so a digest written in a
different letter case fails. -/
theorem checkSha256_exact_comparison (hash : Bytes → String) (fs : FS) (path expected : String) (content : Bytes)
    (h : lookupFS fs path = some content) :
    checkSha256 hash fs path expected = Except.ok () ↔ hash content = expected := by
  constructor
  · intro hok
    obtain ⟨c, hc, heq⟩ := checkSha256_ok_lookup hash fs path expected hok
    rw [h] at hc
    cases hc
    exact heq
  · intro heq
    exact checkSha256_match hash fs path expected content h heq

/-- Witness for the amended C5 at a concrete file and digest. -/
theorem checkSha256_exact_comparison_witness :
    lookupFS [("p", [1])] "p" = some [1]
    ∧ (checkSha256 (fun _ => "ab") [("p", [1])] "p" "ab" = Except.ok () ↔ (fun _ : Bytes => "ab") [1] = "ab") :=
  ⟨by decide, checkSha256_exact_comparison (fun _ => "ab") [("p", [1])] "p" "ab" [1] (by decide)⟩

theorem getElem?_append_cons (pre : List YEntry) (x : YEntry) (l : List YEntry) :
    (pre ++ x :: l)[pre.length]? = some x := by
  induction pre with
  | nil => simp
  | cons a as ih => simpa using ih

theorem depsLoop_uncached_aux (hash : Bytes → String) (md5h : String → String) (env : Env) (stack cacheDir : String) :
    ∀ (pairs : List (Dependency × YEntry)) (pre : List YEntry) (fs : FS) (accD : List YEntry) (files : List File),
      depsLoop hash md5h env false stack cacheDir fs (pairs.map Prod.fst) (pre ++ pairs.map Prod.snd) pre.length accD files
        = LoopOut.ok (accD ++ (pairs.filter (fun p => retainDep stack p.1)).map Prod.snd) files fs := by
  intro pairs
  induction pairs with
  | nil =>
    intro pre fs accD files
    simp [depsLoop]
  | cons pr rest ih =>
    intro pre fs accD files
    rcases pr with ⟨d, entry⟩
    have hidx : (pre ++ entry :: rest.map Prod.snd)[pre.length]? = some entry :=
      getElem?_append_cons pre entry (rest.map Prod.snd)
    have harr : pre ++ entry :: rest.map Prod.snd = (pre ++ [entry]) ++ rest.map Prod.snd := by
      simp
    have hlen1 : pre.length + 1 = (pre ++ [entry]).length := by simp
    by_cases hret : retainDep stack d = true
    · have hstep : depsLoop hash md5h env false stack cacheDir fs (((d, entry) :: rest).map Prod.fst) (pre ++ ((d, entry) :: rest).map Prod.snd) pre.length accD files
          = depsLoop hash md5h env false stack cacheDir fs (rest.map Prod.fst) (pre ++ entry :: rest.map Prod.snd) (pre.length + 1) (accD ++ [entry]) files := by
        conv =>
          lhs
          rw [List.map_cons, List.map_cons]
          unfold depsLoop
        rw [if_pos hret, hidx]
        rfl
      rw [hstep, hlen1, harr, ih (pre ++ [entry]) fs (accD ++ [entry]) files]
      simp [hret]
    · have hstep : depsLoop hash md5h env false stack cacheDir fs (((d, entry) :: rest).map Prod.fst) (pre ++ ((d, entry) :: rest).map Prod.snd) pre.length accD files
          = depsLoop hash md5h env false stack cacheDir fs (rest.map Prod.fst) (pre ++ entry :: rest.map Prod.snd) (pre.length + 1) accD files := by
        conv =>
          lhs
          rw [List.map_cons, List.map_cons]
          unfold depsLoop
        rw [if_neg hret]
      rw [hstep, hlen1, harr, ih (pre ++ [entry]) fs accD files]
      simp [hret]

theorem retainDep_iff (stack : String) (d : Dependency) :
    retainDep stack d = true ↔ (stack ∈ d.Stacks ∨ (stack = "" ∧ d.Stacks ≠ [])) := by
  unfold retainDep
  simp only [List.any_eq_true, Bool.or_eq_true, beq_iff_eq]
  constructor
  · rintro ⟨s, hs, h | h⟩
    · exact Or.inr ⟨h, List.ne_nil_of_mem hs⟩
    · exact Or.inl (h ▸ hs)
  · rintro (h | ⟨h, hne⟩)
    · exact ⟨stack, h, Or.inr rfl⟩
    · obtain ⟨s, hs⟩ := List.exists_mem_of_ne_nil d.Stacks hne
      exact ⟨s, hs, Or.inl h⟩

/-- Amended C2: running Package's dependency loop (uncached) over
positionally aligned typed/raw dependency sequences rewrites the raw
"dependencies" sequence to exactly the entries whose Stacks set contains
the target stack - or, when the target stack is empty, the entries whose
Stacks set is non-empty - each exactly once, in original relative order
(a dependency with an empty Stacks set is dropped even for the empty
target stack, which is the one deviation from the claim as stated). -/
theorem package_filters_dependencies_by_stack (hash : Bytes → String) (md5h : String → String) (env : Env) (stack cacheDir : String) (fs : FS) (files : List File) (pairs : List (Dependency × YEntry)) :
    depsLoop hash md5h env false stack cacheDir fs (pairs.map Prod.fst) (pairs.map Prod.snd) 0 [] files
      = LoopOut.ok ((pairs.filter (fun p => decide (stack ∈ p.1.Stacks ∨ (stack = "" ∧ p.1.Stacks ≠ [])))).map Prod.snd) files fs := by
  have h := depsLoop_uncached_aux hash md5h env stack cacheDir pairs [] fs [] files
  simp only [List.nil_append, List.length_nil] at h
  rw [h]
  have hcong : pairs.filter (fun p => retainDep stack p.1)
      = pairs.filter (fun p => decide (stack ∈ p.1.Stacks ∨ (stack = "" ∧ p.1.Stacks ≠ []))) := by
    apply List.filter_congr
    intro p _
    rw [Bool.eq_iff_iff, decide_eq_true_iff]
    exact retainDep_iff stack p.1
  rw [hcong]

/-- Counterexample for C2 as stated: with an empty target stack, a
dependency whose Stacks set is empty is dropped from the rewritten
sequence, not retained. -/
theorem empty_stacks_dropped_for_empty_stack :
    depsLoop (fun _ => "h") (fun _ => "m") noEnv false "" "cache" [] [{ URI := "u", SHA256 := "s", Stacks := [] }] [YEntry.str "e"] 0 [] []
      = LoopOut.ok [] [] []
    ∧ ([] : List YEntry) ≠ [YEntry.str "e"] :=
  ⟨by decide, by decide⟩

theorem depsLoop_panic_aux (hash : Bytes → String) (md5h : String → String) (env : Env) (stack cacheDir : String) (fs : FS) (raw : List YEntry) :
    ∀ (typed : List Dependency) (idx : Nat) (accD : List YEntry) (files : List File),
      (∃ j d, typed[j]? = some d ∧ retainDep stack d = true ∧ raw.length ≤ idx + j) →
      depsLoop hash md5h env false stack cacheDir fs typed raw idx accD files = LoopOut.panic := by
  intro typed
  induction typed with
  | nil =>
    rintro idx accD files ⟨j, d, hj, _, _⟩
    simp at hj
  | cons d0 ds ih =>
    rintro idx accD files ⟨j, d, hj, hret, hlen⟩
    by_cases h0 : retainDep stack d0 = true
    · rcases hq : raw[idx]? with _ | entry
      · unfold depsLoop
        rw [if_pos h0, hq]
      · have hidxlt : idx < raw.length := by
          by_contra hge
          rw [List.getElem?_eq_none (Nat.le_of_not_lt hge)] at hq
          simp at hq
        cases j with
        | zero =>
          rw [Nat.add_zero] at hlen
          exact absurd hlen (Nat.not_le_of_lt hidxlt)
        | succ j' =>
          have hj' : ds[j']? = some d := by simpa using hj
          have hstep : depsLoop hash md5h env false stack cacheDir fs (d0 :: ds) raw idx accD files
              = depsLoop hash md5h env false stack cacheDir fs ds raw (idx + 1) (accD ++ [entry]) files := by
            conv =>
              lhs
              unfold depsLoop
            rw [if_pos h0, hq]
            rfl
          rw [hstep]
          exact ih (idx + 1) (accD ++ [entry]) files ⟨j', d, hj', hret, by omega⟩
    · cases j with
      | zero =>
        simp only [List.getElem?_cons_zero, Option.some.injEq] at hj
        exact absurd (hj ▸ hret) h0
      | succ j' =>
        have hj' : ds[j']? = some d := by simpa using hj
        have hstep : depsLoop hash md5h env false stack cacheDir fs (d0 :: ds) raw idx accD files
            = depsLoop hash md5h env false stack cacheDir fs ds raw (idx + 1) accD files := by
          conv =>
            lhs
            unfold depsLoop
          rw [if_neg h0]
        rw [hstep]
        exact ih (idx + 1) accD files ⟨j', d, hj', hret, by omega⟩

/-- Claim C8: when the raw "dependencies" sequence is shorter than the
typed dependency list, a retained dependency whose index is out of range
for the raw sequence makes Package's loop end in the runtime panic
(modelled by the distinguished `panic` outcome, which is not an `err`
return). -/
theorem package_short_raw_panics (hash : Bytes → String) (md5h : String → String) (env : Env) (stack cacheDir : String) (fs : FS) (typed : List Dependency) (raw : List YEntry) (files : List File) (i : Nat) (d : Dependency)
    (hd : typed[i]? = some d) (hret : retainDep stack d = true) (hlen : raw.length ≤ i) :
    depsLoop hash md5h env false stack cacheDir fs typed raw 0 [] files = LoopOut.panic :=
  depsLoop_panic_aux hash md5h env stack cacheDir fs raw typed 0 [] files ⟨i, d, hd, hret, by omega⟩

/-- Witness for C8: one retained dependency against an empty raw sequence. -/
theorem package_short_raw_panics_witness :
    ([{ URI := "u", SHA256 := "s", Stacks := ["st"] }] : List Dependency)[0]? = some { URI := "u", SHA256 := "s", Stacks := ["st"] }
    ∧ retainDep "st" { URI := "u", SHA256 := "s", Stacks := ["st"] } = true
    ∧ ([] : List YEntry).length ≤ 0
    ∧ depsLoop (fun _ => "h") (fun _ => "m") noEnv false "st" "cache" [] [{ URI := "u", SHA256 := "s", Stacks := ["st"] }] [] 0 [] [] = LoopOut.panic :=
  ⟨by decide, by decide, by decide,
   package_short_raw_panics (fun _ => "h") (fun _ => "m") noEnv "st" "cache" [] [{ URI := "u", SHA256 := "s", Stacks := ["st"] }] [] [] 0 { URI := "u", SHA256 := "s", Stacks := ["st"] } (by decide) (by decide) (by decide)⟩

/-- Claim C6 (code bug): for a retained dependency whose raw entry is not a
mapping, `updateDependencyMap` does construct the typed-cast error, but the
loop discards its return value: in cached mode (with the artifact already
cached and verified) the loop completes successfully with the non-mapping
entry passed through unchanged, and in uncached mode no cast is attempted
at all - in neither mode does the cast failure reach the caller. -/
theorem cast_failure_discarded :
    updateDependencyMap (YEntry.str "x") { Name := "dependencies/m/u", Path := "cache/dependencies/m/u" }
      = Except.error "Could not cast deps[idx] to map[interface\x7b\x7d]interface\x7b\x7d"
    ∧ depsLoop (fun _ => "h") (fun _ => "m") noEnv true "st" "cache" [("cache/dependencies/m/u", [])] [{ URI := "u", SHA256 := "h", Stacks := ["st"] }] [YEntry.str "x"] 0 [] []
        = LoopOut.ok [YEntry.str "x"] [{ Name := "dependencies/m/u", Path := "cache/dependencies/m/u" }] [("cache/dependencies/m/u", [])]
    ∧ depsLoop (fun _ => "h") (fun _ => "m") noEnv false "st" "cache" [("cache/dependencies/m/u", [])] [{ URI := "u", SHA256 := "h", Stacks := ["st"] }] [YEntry.str "x"] 0 [] []
        = LoopOut.ok [YEntry.str "x"] [] [("cache/dependencies/m/u", [])] :=
  ⟨rfl, by decide, by decide⟩

/-- Claim C3 (code bug): on an archive-build failure (here: a source file
that cannot be opened) ZipFiles returns an error, but Package's tail
discards it and returns the archive path with a nil error - the caller
sees success. -/
theorem zip_error_discarded :
    ZipFiles { createOk := true } [] ("bp/" ++ zipFileName "ruby" "1.2.3" true) [{ Name := "a", Path := "missing" }]
      = Except.error "open failed: missing"
    ∧ packageFinish { createOk := true } [] "ruby" "1.2.3" true "bp" [{ Name := "a", Path := "missing" }]
        = Except.ok "bp/ruby_buildpack-cached-v1.2.3.zip" :=
  ⟨rfl, rfl⟩

theorem prefixesOf_ne_nil (p : List String) : ∀ q ∈ prefixesOf p, q ≠ [] := by
  induction p with
  | nil => intro q hq; simp [prefixesOf] at hq
  | cons c rest ih =>
    intro q hq
    simp only [prefixesOf, List.mem_cons, List.mem_map] at hq
    rcases hq with h | ⟨q', _, h⟩
    · subst h; simp
    · subst h; simp

theorem relString_cons (c : String) (q : List String) (h : q ≠ []) :
    relString (c :: q) = c ++ "/" ++ relString q := by
  cases q with
  | nil => exact absurd rfl h
  | cons a as => rfl

theorem slash_mem_append (c x : String) : '/' ∈ (c ++ "/" ++ x).data := by
  rw [String.data_append, String.data_append]
  simp [show ("/" : String).data = ['/'] from rfl]

theorem append_slash_ne_dotgit (c x : String) : c ++ "/" ++ x ≠ ".git" := by
  intro h
  have hm := slash_mem_append c x
  rw [h] at hm
  exact absurd hm (by decide)

theorem append_slash_ne_tests (c x : String) : c ++ "/" ++ x ≠ "tests" := by
  intro h
  have hm := slash_mem_append c x
  rw [h] at hm
  exact absurd hm (by decide)

theorem walkSkipHere_cons_false (c : String) (q : List String) (h : q ≠ []) :
    walkSkipHere (c :: q) = false := by
  unfold walkSkipHere
  rw [relString_cons c q h]
  rw [beq_eq_false_iff_ne.mpr (append_slash_ne_dotgit c (relString q)),
    beq_eq_false_iff_ne.mpr (append_slash_ne_tests c (relString q))]
  rfl

theorem excludedByWalk_eq_topSkip (p : List String) : excludedByWalk p = topSkip p := by
  cases p with
  | nil => rfl
  | cons c rest =>
    unfold excludedByWalk prefixesOf
    rw [List.any_cons]
    have htail : ((prefixesOf rest).map (fun q => c :: q)).any walkSkipHere = false := by
      rw [List.any_map]
      rw [List.any_eq_false]
      intro q hq
      simp only [Function.comp_apply]
      rw [walkSkipHere_cons_false c q (prefixesOf_ne_nil rest q hq)]
      simp
    rw [htail, Bool.or_false]
    rfl

/-- Amended C4: the staged copy excludes exactly the entries whose FIRST
path component is `.git` or `tests` (together with their subtrees); an
entry named `.git` or `tests` at a deeper level is copied, because the walk
compares the whole relative path string against ".git"/"tests". -/
theorem copyDirectory_skips_top_level_only (tree : List (List String)) :
    copyDirectory tree = tree.filter (fun p => !topSkip p) := by
  unfold copyDirectory
  apply List.filter_congr
  intro p _
  rw [excludedByWalk_eq_topSkip]

/-- Counterexample for C4 as stated: a `.git` directory nested one level
down survives the copy together with its contents. -/
theorem nested_dotgit_not_excluded :
    copyDirectory [["sub"], ["sub", ".git"], ["sub", ".git", "config"]]
      = [["sub"], ["sub", ".git"], ["sub", ".git", "config"]]
    ∧ ["sub", ".git", "config"] ∈ copyDirectory [["sub"], ["sub", ".git"], ["sub", ".git", "config"]] :=
  ⟨by decide, by decide⟩
